import Mathlib

/-!
Verification development for the Kaleidoscope front end in this repository
(`src/hls/lexer.hpp`, `src/hls/ast.hpp`, `src/hls/parser.hpp`,
`src/hls/ast_visitor.hpp`, `src/hls/ast_visitor.cpp`).

The development shallowly embeds, faithfully to the C++ source:
  - the token data model (`lexer.hpp`: `TokenType`, `Token`),
  - the AST data model (`ast.hpp`), including the partial `print` methods,
  - the recursive-descent / operator-precedence parser (`parser.hpp`),
  - the SSA-lowering code generator (`ast_visitor.cpp`, class `ASTCodegen`),
    with the LLVM builder/module modelled per the backend contract of the
    specification (symbolic SSA values, blocks and instructions; the
    optimizer and verifier are opaque post-steps with no modelled effect).

Conventions:
  - C++ `double` literals are represented by rationals (`ℚ`); no claim in
    scope depends on IEEE rounding, and the code generator only moves these
    values around symbolically.
  - Null pointers (`llvm::Value*`, parse failures) are `Option`.
  - Messages written to `std::cerr` are accumulated in a diagnostics list;
    `std::cout` progress prints and the `incremental_print_` debug mode
    (default-off) are not modelled.
  - The parser's recursive procedures take a fuel argument purely to satisfy
    termination; fuel exhaustion is reported as a parse failure and every
    theorem below supplies ample fuel.
-/

-- ============================================================================
-- Tokens (src/hls/lexer.hpp)
-- ============================================================================

/-- `TokenType` from lexer.hpp. The `extern` keyword token is named
`tok_extern_kw` here. -/
inductive TokenType where
  | tok_none
  | tok_eof
  | tok_def
  | tok_extern_kw
  | tok_identifier
  | tok_number
  | tok_operator
deriving DecidableEq, Repr

/-- `Token` from lexer.hpp: a type plus an optional string payload. -/
structure Token where
  type : TokenType
  value : Option String
deriving DecidableEq, Repr

/-- `Token::value()` returns `value_.value_or("")`. -/
def Token.val (t : Token) : String := t.value.getD ""

/-- Convenience constructor for an operator token. -/
def opTok (s : String) : Token := ⟨.tok_operator, some s⟩

/-- Convenience constructor for an identifier token. -/
def idTok (s : String) : Token := ⟨.tok_identifier, some s⟩

/-- Convenience constructor for a number token. -/
def numTok (s : String) : Token := ⟨.tok_number, some s⟩

/-- The token the lexer produces at end of input. -/
def eofTok : Token := ⟨.tok_eof, none⟩

-- ============================================================================
-- AST data model (src/hls/ast.hpp)
-- ============================================================================

/-- Expression AST nodes (`ExprAST` hierarchy in ast.hpp). One constructor per
concrete class: `NumberExprAST`, `VariableExprAST`, `BinaryExprAST`,
`CallExprAST`, and the conditional/loop nodes `IfExprAST`/`ForExprAST`.

Modelled from the spec: the class bodies of `IfExprAST` and `ForExprAST` are
absent from `src/` (they are only forward-declared in ast_visitor.hpp and
consumed in ast_visitor.cpp); their fields follow the spec's
`Conditional{condition, then_branch, else_branch}` and
`BoundedLoop{induction_var, start, end, step: optional, body}` together with
the accessors used by ast_visitor.cpp (`cond`, `then_expr`, `else_expr`,
`loop_var`, `start_expr`, `end_expr`, `step_expr`, `body_expr`). -/
inductive ExprAST where
  | num (val : ℚ)
  | var (name : String)
  | bin (op : Char) (lhs rhs : ExprAST)
  | call (callee : String) (args : List ExprAST)
  | ifE (cond then_e else_e : ExprAST)
  | forE (loop_var : String) (start_e end_e : ExprAST) (step_e : Option ExprAST)
      (body_e : ExprAST)

/-- `PrototypeAST` from ast.hpp: a function name and its parameter names. -/
structure PrototypeAST where
  name : String
  args : List String
deriving DecidableEq, Repr

/-- `FunctionAST` from ast.hpp: a prototype plus a body expression. -/
structure FunctionAST where
  proto : PrototypeAST
  body : ExprAST

/-- The `AST` base-class results that `Parser::step` can hand back: a
prototype (from `extern`) or a function (from `def` / top level). -/
inductive AST where
  | protoNode (p : PrototypeAST)
  | funcNode (f : FunctionAST)

-- ============================================================================
-- The print() methods (ast.hpp) and their vector accesses
-- ============================================================================

/-- `args_.size() - 1` computed in `std::size_t` arithmetic: subtraction
wraps modulo `2^64`, so an empty vector yields `2^64 - 1`. -/
def size_t_pred (n : Nat) : Nat := (n + (2 ^ 64 - 1)) % 2 ^ 64

/-- The loop `for (idx = 0; idx < size - 1; ++idx) acc += piece(idx) + ", "`
shared by `CallExprAST::print` and `PrototypeAST::print` (ast.hpp:304,393).
`ps` holds the per-element piece (for call arguments, the argument's own
`print()` result, `none` when that nested print itself touched the vector out
of bounds); `remaining` counts the iterations left (`bound - idx`). A `none`
overall result marks an out-of-bounds vector access — undefined behaviour in
the source. -/
def printPieces (ps : List (Option String)) : Nat → Nat → String → Option String
  | _, 0, acc => some acc
  | idx, remaining + 1, acc =>
    match ps.get? idx with
    | none => none
    | some none => none
    | some (some s) => printPieces ps (idx + 1) remaining (acc ++ s ++ ", ")

/-- Combine the comma loop's result with the final element access: both must
be in bounds (and the final element's own print succeed) for the whole print
to produce a string. -/
def printFinish (acc? : Option String) (last? : Option (Option String)) : Option String :=
  match acc? with
  | none => none
  | some acc =>
    match last? with
    | none => none
    | some none => none
    | some (some last) => some (acc ++ last ++ ")")

/-- The common shape of `CallExprAST::print` / `PrototypeAST::print`: header,
the comma loop over indices `0 .. size-2`, then the unconditional access at
index `size - 1` (in `size_t` arithmetic) and the closing parenthesis. -/
def printFromPieces (header : String) (ps : List (Option String)) : Option String :=
  printFinish (printPieces ps 0 (size_t_pred ps.length) header)
    (ps.get? (size_t_pred ps.length))

mutual
/-- `print()` of the expression classes (ast.hpp). `none` marks an
out-of-bounds vector access (undefined behaviour in the source); the only
partial case is `CallExprAST::print`. The argument pieces are precomputed by
`printEach`, which is observably equivalent to the source's on-demand
`args_[idx]->print()` calls because `print` has no side effects.
`std::to_string(double)` is rendered via `ℚ`'s `toString`; no claim depends
on the exact numeric text. The `IfExprAST`/`ForExprAST` renderings are
placeholders (modelled from the spec — their class bodies are absent from
`src/` and no claim concerns their printing). -/
def ExprAST.print : ExprAST → Option String
  | .num v => some ("NumberExprAST: Value = " ++ toString v)
  | .var n => some ("VariableExprAST: Name = " ++ n)
  | .bin op l r =>
    match l.print with
    | none => none
    | some ls =>
      match r.print with
      | none => none
      | some rs =>
        some ("BinaryExprAST: LHS = (" ++ ls ++ "), Operator = " ++
          String.mk [op] ++ ", RHS = (" ++ rs ++ ")")
  | .call callee args =>
    printFromPieces ("CallExprAST: Signature = " ++ callee ++ "(") (printEach args)
  | .ifE _ _ _ => some "IfExprAST"
  | .forE _ _ _ _ _ => some "ForExprAST"

/-- The argument prints consumed by `CallExprAST::print`. -/
def printEach : List ExprAST → List (Option String)
  | [] => []
  | a :: rest => a.print :: printEach rest
end

/-- `PrototypeAST::print` (ast.hpp:390-397): same loop shape over the
parameter-name vector (names print totally). -/
def PrototypeAST.print (p : PrototypeAST) : Option String :=
  printFromPieces ("PrototypeAST, Signature = " ++ p.name ++ "(") (p.args.map some)

-- ============================================================================
-- Parser (src/hls/parser.hpp)
-- ============================================================================

/-- Parser state: the tokens not yet pulled from the lexer, plus the
`current_token_` lookahead buffer. -/
structure PState where
  tokens : List Token
  current : Token
deriving DecidableEq, Repr

/-- `Parser::next_token`: pull one token into `current_token_`. The lexer
contract returns the EOF token forever once input is exhausted. -/
def Parser.next_token (st : PState) : PState :=
  match st.tokens with
  | [] => { st with current := eofTok }
  | t :: ts => { tokens := ts, current := t }

/-- The parser constructor primes the token buffer with one `next_token`. -/
def Parser.init (toks : List Token) : PState :=
  Parser.next_token ⟨toks, ⟨.tok_none, none⟩⟩

/-- The `binop_precedence_` table lookup. `std::map::operator[]` yields a
value-initialized `0` for any operator not in the table
(`{"<",10},{"+",20},{"-",20},{"*",40}`). -/
def binop_precedence (s : String) : Int :=
  if s = "<" then 10
  else if s = "+" then 20
  else if s = "-" then 20
  else if s = "*" then 40
  else 0

/-- `Parser::get_token_precedence`: `-1` unless the current token is an
operator with a positive table entry. -/
def Parser.get_token_precedence (st : PState) : Int :=
  if st.current.type ≠ .tok_operator then -1
  else if binop_precedence st.current.val > 0 then binop_precedence st.current.val
  else -1

/-- `*binop.value().c_str()`: the first character of the operator's text
(`'\0'` for the empty string). -/
def firstChar (s : String) : Char := s.toList.headD (Char.ofNat 0)

/-- `std::stof` stand-in used by `parse_number_expr`: reads a decimal
`digits[.digits]` literal into `ℚ`. Exact on such literals; IEEE rounding is
not modelled (no claim depends on a parsed numeric value). -/
def stof (s : String) : ℚ :=
  let cs := s.toList
  let intPart := (cs.takeWhile (fun c => c ≠ '.')).filter Char.isDigit
  let fracPart := ((cs.dropWhile (fun c => c ≠ '.')).drop 1).takeWhile Char.isDigit
  let digits : List Char → Nat := fun l => l.foldl (fun a c => 10 * a + (c.toNat - 48)) 0
  (digits intPart : ℚ) + (digits fracPart : ℚ) / ((10 : ℚ) ^ fracPart.length)

/-- `Parser::parse_number_expr`: wrap the current number token and advance. -/
def Parser.parse_number_expr (st : PState) : Option ExprAST × PState :=
  (some (.num (stof st.current.val)), Parser.next_token st)

mutual
/-- `Parser::parse_primary` (parser.hpp:151): identifier, number or
parenthesized expression; anything else is a null result. The `tok_operator`
case falls through to the trailing `return nullptr` when the token is not
`"("`. -/
def Parser.parse_primary : Nat → PState → Option ExprAST × PState
  | 0, st => (none, st)
  | fuel + 1, st =>
    match st.current.type with
    | .tok_identifier => Parser.parse_identifier_expr fuel st
    | .tok_number => Parser.parse_number_expr st
    | .tok_operator =>
      if st.current.val = "(" then Parser.parse_parentheses_expr fuel st
      else (none, st)
    | _ => (none, st)

/-- `Parser::parse_parentheses_expr` (parser.hpp:183): consume `(`, parse an
expression, require `)`. -/
def Parser.parse_parentheses_expr : Nat → PState → Option ExprAST × PState
  | 0, st => (none, st)
  | fuel + 1, st =>
    let st := Parser.next_token st
    match Parser.parse_expression fuel st with
    | (none, st) => (none, st)
    | (some e, st) =>
      if st.current.val ≠ ")" then (none, st)
      else (some e, Parser.next_token st)

/-- `Parser::parse_identifier_expr` (parser.hpp:209): a plain variable
reference, or — when immediately followed by `(` — a call with
comma-separated argument expressions. -/
def Parser.parse_identifier_expr : Nat → PState → Option ExprAST × PState
  | 0, st => (none, st)
  | fuel + 1, st =>
    let name := st.current.val
    let st := Parser.next_token st
    if st.current.val ≠ "(" then (some (.var name), st)
    else
      let st := Parser.next_token st
      if st.current.val = ")" then (some (.call name []), Parser.next_token st)
      else
        match Parser.parse_call_args fuel st [] with
        | (none, st) => (none, st)
        | (some args, st) => (some (.call name args), Parser.next_token st)

/-- The `while (1)` argument loop inside `parse_identifier_expr`: parse an
expression, then require `)` (stop) or `,` (continue); anything else is the
"Only , character is permitted between function arguments." error. -/
def Parser.parse_call_args : Nat → PState → List ExprAST →
    Option (List ExprAST) × PState
  | 0, st, _ => (none, st)
  | fuel + 1, st, acc =>
    match Parser.parse_expression fuel st with
    | (none, st) => (none, st)
    | (some arg, st) =>
      let acc := acc ++ [arg]
      if st.current.val = ")" then (some acc, st)
      else if st.current.val ≠ "," then (none, st)
      else Parser.parse_call_args fuel (Parser.next_token st) acc

/-- `Parser::parse_expression` (parser.hpp:278): one primary, then the
operator-precedence loop starting at minimum precedence 0. -/
def Parser.parse_expression : Nat → PState → Option ExprAST × PState
  | 0, st => (none, st)
  | fuel + 1, st =>
    match Parser.parse_primary fuel st with
    | (none, st) => (none, st)
    | (some lhs, st) => Parser.parse_binop_rhs fuel 0 lhs st

/-- `Parser::parse_binop_rhs` (parser.hpp:296): precedence climbing. The
source's `while (1)` loop is the tail call that keeps `expr_precedence`; the
recursive call with `token_precedence + 1` binds a strictly
tighter-binding look-ahead operator to the right. -/
def Parser.parse_binop_rhs : Nat → Int → ExprAST → PState → Option ExprAST × PState
  | 0, _, _, st => (none, st)
  | fuel + 1, expr_precedence, lhs, st =>
    let token_precedence := Parser.get_token_precedence st
    if token_precedence < expr_precedence then (some lhs, st)
    else
      let binop := st.current
      let st := Parser.next_token st
      match Parser.parse_primary fuel st with
      | (none, st) => (none, st)
      | (some rhs0, st) =>
        let next_precedence := Parser.get_token_precedence st
        match
          (if token_precedence < next_precedence then
            Parser.parse_binop_rhs fuel (token_precedence + 1) rhs0 st
          else (some rhs0, st)) with
        | (none, st) => (none, st)
        | (some rhs, st) =>
          Parser.parse_binop_rhs fuel expr_precedence
            (.bin (firstChar binop.val) lhs rhs) st
end

/-- The `while (next_token().type() == tok_identifier)` parameter loop of
`parse_prototype`: advance first, collect identifiers, stop at the first
non-identifier (commas are NOT consumed here). -/
def Parser.proto_args : Nat → PState → List String → Option (List String) × PState
  | 0, st, _ => (none, st)
  | fuel + 1, st, acc =>
    let st := Parser.next_token st
    if st.current.type = .tok_identifier then
      Parser.proto_args fuel st (acc ++ [st.current.val])
    else (some acc, st)

/-- `Parser::parse_prototype` (parser.hpp:348): identifier, `(`, zero or more
whitespace-separated identifiers, `)`. -/
def Parser.parse_prototype (fuel : Nat) (st : PState) : Option PrototypeAST × PState :=
  if st.current.type ≠ .tok_identifier then (none, st)
  else
    let function_name := st.current.val
    let st := Parser.next_token st
    if st.current.val ≠ "(" then (none, st)
    else
      match Parser.proto_args fuel st [] with
      | (none, st) => (none, st)
      | (some arg_names, st) =>
        if st.current.val ≠ ")" then (none, st)
        else (some ⟨function_name, arg_names⟩, Parser.next_token st)

/-- `Parser::parse_definition` (parser.hpp:379): eat `def`, a prototype, then
the body expression. -/
def Parser.parse_definition (fuel : Nat) (st : PState) : Option FunctionAST × PState :=
  let st := Parser.next_token st
  match Parser.parse_prototype fuel st with
  | (none, st) => (none, st)
  | (some proto, st) =>
    match Parser.parse_expression fuel st with
    | (none, st) => (none, st)
    | (some expr, st) => (some ⟨proto, expr⟩, st)

/-- `Parser::parse_extern` (parser.hpp:401): eat the keyword, then a
prototype. -/
def Parser.parse_extern_decl (fuel : Nat) (st : PState) : Option PrototypeAST × PState :=
  Parser.parse_prototype fuel (Parser.next_token st)

/-- `Parser::parse_top_level` (parser.hpp:412): an expression wrapped in an
anonymous prototype with no name and no parameters. -/
def Parser.parse_top_level (fuel : Nat) (st : PState) : Option FunctionAST × PState :=
  match Parser.parse_expression fuel st with
  | (none, st) => (none, st)
  | (some expr, st) => (some ⟨⟨"", []⟩, expr⟩, st)

/-- `Parser::handle_definition`: on failure, advance one token and report a
null result. -/
def Parser.handle_definition (fuel : Nat) (st : PState) : Option AST × PState :=
  match Parser.parse_definition fuel st with
  | (some r, st) => (some (.funcNode r), st)
  | (none, st) => (none, Parser.next_token st)

/-- `Parser::handle_extern`. -/
def Parser.handle_extern_decl (fuel : Nat) (st : PState) : Option AST × PState :=
  match Parser.parse_extern_decl fuel st with
  | (some r, st) => (some (.protoNode r), st)
  | (none, st) => (none, Parser.next_token st)

/-- `Parser::handle_top_level`. -/
def Parser.handle_top_level (fuel : Nat) (st : PState) : Option AST × PState :=
  match Parser.parse_top_level fuel st with
  | (some r, st) => (some (.funcNode r), st)
  | (none, st) => (none, Parser.next_token st)

/-- `Parser::step` (parser.hpp:48): dispatch on the lookahead token. Note the
source's `;` arm consumes the separator and then `break`s out of the switch,
reaching the trailing `return nullptr` — it does not recurse. A non-`;`
operator falls through to the `default:` arm. -/
def Parser.step (fuel : Nat) (st : PState) : Option AST × PState :=
  match st.current.type with
  | .tok_eof => (none, st)
  | .tok_def => Parser.handle_definition fuel st
  | .tok_extern_kw => Parser.handle_extern_decl fuel st
  | .tok_operator =>
    if st.current.val = ";" then (none, Parser.next_token st)
    else Parser.handle_top_level fuel st
  | _ => Parser.handle_top_level fuel st

-- ============================================================================
-- Code generator state model (src/hls/ast_visitor.hpp, ast_visitor.cpp)
-- ============================================================================

/-- Symbolic LLVM SSA values (`llvm::Value*`): uniqued floating constants
(`llvm::ConstantFP`), function arguments, and instruction results (referred
to by their index in the emission list). A null `llvm::Value*` is `Option`'s
`none` at use sites. -/
inductive LVal where
  | constFP (x : ℚ)
  | argV (fn : String) (idx : Nat)
  | inst (id : Nat)
deriving DecidableEq, Repr

/-- The primitive instructions the code generator emits through the
`llvm::IRBuilder` (backend contract of spec §6). Operands are recorded as the
possibly-null `llvm::Value*` the source passes. -/
inductive InstOp where
  | fadd (a b : Option LVal)
  | fsub (a b : Option LVal)
  | fmul (a b : Option LVal)
  | fcmpult (a b : Option LVal)
  | fcmpone (a b : Option LVal)
  | uitofp (a : Option LVal)
  | brI (dest : Nat)
  | condbr (cond : Option LVal) (then_bb else_bb : Nat)
  | phi (incoming : List (Option LVal × Nat))
  | callI (callee : String) (args : List (Option LVal))
  | retI (v : Option LVal)
deriving DecidableEq, Repr

/-- An emitted instruction together with the basic block that was the
builder's insertion point when it was emitted. -/
structure Inst where
  op : InstOp
  block : Option Nat
deriving DecidableEq, Repr

/-- A basic block: its name and (once attached) its parent function.
`llvm::BasicBlock::Create` without a function argument produces a dangling
block later attached by `getBasicBlockList().push_back`. -/
structure LBlock where
  bname : String
  parent : Option String
deriving DecidableEq, Repr

/-- An `llvm::Function` in the module: name, parameter names (set by the
`arg.setName` loop of `ASTCodegen::prototype`), and its basic-block list
(block ids); `empty()` in the source is this list being empty. -/
structure LFunc where
  fname : String
  fargs : List String
  fblocks : List Nat
deriving DecidableEq, Repr

/-- The `named_values_` symbol table, `std::map<std::string, llvm::Value*>`:
keys to possibly-null values. Represented as an association list with unique
keys; `eraseS` removes every entry with the key and `insertS` replaces every
entry with the key (on the unique-key states `std::map` can produce, both
coincide with the map's single-entry update/erase). -/
abbrev SymTab := List (String × Option LVal)

/-- Key lookup (`std::map::find`-style: no insertion). -/
def SymTab.lookupS : SymTab → String → Option (Option LVal)
  | [], _ => none
  | (k2, v) :: rest, k => if k2 = k then some v else SymTab.lookupS rest k

/-- `m[k] = v` on a key known to be present, or appending a fresh entry. -/
def SymTab.insertS : SymTab → String → Option LVal → SymTab
  | [], k, v => [(k, v)]
  | (k2, v2) :: rest, k, v =>
    if k2 = k then (k2, v) :: rest
    else (k2, v2) :: SymTab.insertS rest k v

/-- `std::map::erase(k)`. -/
def SymTab.eraseS : SymTab → String → SymTab
  | [], _ => []
  | (k2, v2) :: rest, k =>
    if k2 = k then SymTab.eraseS rest k
    else (k2, v2) :: SymTab.eraseS rest k

/-- Reading `named_values_[k]` through `std::map::operator[]`: a missing key
is default-inserted with a value-initialized (null) `llvm::Value*`, and the
mapped value is returned. -/
def SymTab.getDefault (m : SymTab) (k : String) : Option LVal × SymTab :=
  match m.lookupS k with
  | some v => (v, m)
  | none => (none, m ++ [(k, none)])

/-- The `ASTCodegen` state: the LLVM module (function list), the created
basic blocks and emitted instructions, the builder's insertion point, the
`named_values_` table, accumulated `std::cerr` diagnostics, and the three
result caches `value_`, `function_` (by function name) and `phi_`. `ub` is
set when the source would dereference a null insertion-block parent —
undefined behaviour never reached in this development. -/
structure CG where
  module : List LFunc
  blocks : List LBlock
  insts : List Inst
  insertPt : Option Nat
  named_values : SymTab
  diags : List String
  value : Option LVal
  functionC : Option String
  phiC : Option Nat
  ub : Bool
deriving DecidableEq, Repr

/-- `module_->getFunction(name)`. -/
def CG.getFunction (st : CG) (n : String) : Option LFunc :=
  st.module.find? (fun f => f.fname == n)

/-- `ASTCodegen::value_error`: flush the `value_` cache and report. -/
def CG.value_error (st : CG) (msg : String) : CG :=
  { st with value := none, diags := st.diags ++ [msg] }

/-- `ASTCodegen::function_error`: flush the `function_` cache and report. -/
def CG.function_error (st : CG) (msg : String) : CG :=
  { st with functionC := none, diags := st.diags ++ [msg] }

/-- Emit one instruction at the current insertion point; returns its id. -/
def CG.emitI (st : CG) (op : InstOp) : Nat × CG :=
  (st.insts.length, { st with insts := st.insts ++ [⟨op, st.insertPt⟩] })

/-- Emit a value-producing instruction and store its result in `value_`. -/
def CG.emitValue (st : CG) (op : InstOp) : CG :=
  let (i, st) := st.emitI op
  { st with value := some (.inst i) }

/-- Append a basic-block id to a module function's block list
(`BasicBlock::Create(ctx, name, function)` / `push_back`). -/
def attachBlock (m : List LFunc) (fn : String) (bid : Nat) : List LFunc :=
  m.map (fun f => if f.fname = fn then { f with fblocks := f.fblocks ++ [bid] } else f)

/-- `llvm::BasicBlock::Create(ctx, name, function)`: create a block inside a
function. -/
def CG.newBlockIn (st : CG) (nm fn : String) : Nat × CG :=
  (st.blocks.length,
    { st with blocks := st.blocks ++ [⟨nm, some fn⟩],
              module := attachBlock st.module fn st.blocks.length })

/-- `llvm::BasicBlock::Create(ctx, name)`: a dangling block. -/
def CG.newBlock (st : CG) (nm : String) : Nat × CG :=
  (st.blocks.length, { st with blocks := st.blocks ++ [⟨nm, none⟩] })

/-- `function->getBasicBlockList().push_back(bb)`. -/
def CG.pushBlock (st : CG) (bid : Nat) (fn : String) : CG :=
  { st with
    blocks := match st.blocks.get? bid with
      | some b => st.blocks.set bid { b with parent := some fn }
      | none => st.blocks,
    module := attachBlock st.module fn bid }

/-- `builder_->SetInsertPoint(bb)`. -/
def CG.setInsert (st : CG) (bid : Nat) : CG := { st with insertPt := some bid }

/-- `builder_->GetInsertBlock()`. Every call site in the source runs with an
insertion point established by `ASTCodegen::function`; a missing one would be
a null dereference there, so the default is never observed. -/
def CG.getInsertBlockD (st : CG) : Nat := st.insertPt.getD 0

/-- `builder_->GetInsertBlock()->getParent()`. -/
def CG.getInsertParent (st : CG) : Option String :=
  match st.insertPt with
  | none => none
  | some b =>
    match st.blocks.get? b with
    | none => none
    | some bl => bl.parent

/-- Marks a state on which the source would dereference a null pointer
(no insertion block / parent function). Unreachable in this development. -/
def CG.stuck (st : CG) : CG := { st with ub := true, value := none }

/-- `phi_node->addIncoming(v, bb)`: append one incoming edge to a phi
instruction. -/
def CG.addIncoming (st : CG) (phiId : Nat) (v : Option LVal) (bb : Nat) : CG :=
  { st with
    insts := match st.insts.get? phiId with
      | some ⟨.phi inc, blk⟩ => st.insts.set phiId ⟨.phi (inc ++ [(v, bb)]), blk⟩
      | _ => st.insts }

-- ============================================================================
-- ASTCodegen visitor (src/hls/ast_visitor.cpp)
-- ============================================================================

/-- `ASTCodegen::number_expr` (ast_visitor.cpp:58): a uniqued ConstantFP
stored in the `value_` cache. -/
def number_expr (v : ℚ) (st : CG) : CG := { st with value := some (.constFP v) }

/-- `ASTCodegen::variable_expr` (ast_visitor.cpp:68): `named_values_[name]`
default-inserts a null value for a missing name; a null result is a
reported, recoverable error. -/
def variable_expr (n : String) (st : CG) : CG :=
  let (val, nv) := st.named_values.getDefault n
  let st := { st with named_values := nv, value := val }
  if st.value = none then
    { st with diags := st.diags ++ ["Variable not in symbol table.\n"] }
  else st

/-- The guard and instruction `switch` of `ASTCodegen::binary_expr`
(ast_visitor.cpp:86-114), applied to the two operand lowering results.
NOTE (faithful to the source): the guard `!(lhs || rhs)` only fires when
BOTH results are null. -/
def binary_expr_emit (op : Char) (lhs rhs : Option LVal) (st : CG) : CG :=
  if lhs = none ∧ rhs = none then
    st.value_error "Neither LHS nor RHS could be found.\n"
  else if op = '+' then st.emitValue (.fadd lhs rhs)
  else if op = '-' then st.emitValue (.fsub lhs rhs)
  else if op = '*' then st.emitValue (.fmul lhs rhs)
  else if op = '<' then
    let (tmp, st2) := st.emitI (.fcmpult lhs rhs)
    st2.emitValue (.uitofp (some (.inst tmp)))
  else st.value_error "Unrecognised binary operator.\n"

/-- The block bookkeeping of `ASTCodegen::if_expr` between the condition and
the `then` branch (ast_visitor.cpp:128-151): not-equal-zero compare, create
the `then`/`else`/`ifcont` blocks, branch, and open `then` for insertion.
Returns `none` (with a stuck state) on the null-parent dereference the
source would perform with no open function — unreachable here. -/
def if_expr_setup (cond : LVal) (st : CG) : Option (String × Nat × Nat × Nat) × CG :=
  let (cond2, st) := st.emitI (.fcmpone (some cond) (some (.constFP 0)))
  match st.getInsertParent with
  | none => (none, st.stuck)
  | some fn =>
    let (then_bb, st) := st.newBlockIn "then" fn
    let (else_bb, st) := st.newBlock "else"
    let (merge_bb, st) := st.newBlock "ifcont"
    let (_, st) := st.emitI (.condbr (some (.inst cond2)) then_bb else_bb)
    (some (fn, then_bb, else_bb, merge_bb), st.setInsert then_bb)

/-- `ASTCodegen::if_expr` between the `then` and `else` branch lowerings
(ast_visitor.cpp:156-170): jump to `ifcont`, remember the emitting block for
the phi, attach `else` and open it for insertion. -/
def if_expr_mid (fn : String) (else_bb merge_bb : Nat) (st : CG) : Nat × CG :=
  let (_, st) := st.emitI (.brI merge_bb)
  let then_bb2 := st.getInsertBlockD
  let st := st.pushBlock else_bb fn
  (then_bb2, st.setInsert else_bb)

/-- The tail of `ASTCodegen::if_expr` (ast_visitor.cpp:176-197): jump to
`ifcont`, attach it, open it, and build the phi with the two incoming edges.
NOTE (faithful to the source): the phi is cached in `phi_` — `value_` is
left holding the else branch's value. -/
def if_expr_finish (fn : String) (merge_bb : Nat) (then_v : LVal) (then_bb2 : Nat)
    (else_v : LVal) (st : CG) : CG :=
  let (_, st) := st.emitI (.brI merge_bb)
  let else_bb2 := st.getInsertBlockD
  let st := st.pushBlock merge_bb fn
  let st := st.setInsert merge_bb
  let (phiId, st) := st.emitI (.phi [])
  let st := st.addIncoming phiId (some then_v) then_bb2
  let st := st.addIncoming phiId (some else_v) else_bb2
  { st with phiC := some phiId }

/-- The loop-header bookkeeping of `ASTCodegen::for_expr`
(ast_visitor.cpp:206-230): create and enter the `loop` block, build the
induction phi seeded from the preheader, save the shadowed binding read
through the default-inserting `named_values_[loop_var]`, and bind the loop
variable to the phi. Returns `none` (with a stuck state) on the null-parent
dereference — unreachable here. -/
def for_expr_setup (vr : String) (start_val : LVal) (st : CG) :
    Option (String × Nat × Nat × Option LVal) × CG :=
  match st.getInsertParent with
  | none => (none, st.stuck)
  | some fn =>
    let preheader_bb := st.getInsertBlockD
    let (loop_bb, st) := st.newBlockIn "loop" fn
    let (_, st) := st.emitI (.brI loop_bb)
    let st := st.setInsert loop_bb
    let (phiId, st) := st.emitI (.phi [])
    let st := st.addIncoming phiId (some start_val) preheader_bb
    let (old_value, nv) := st.named_values.getDefault vr
    (some (fn, loop_bb, phiId, old_value),
      { st with named_values := nv.insertS vr (some (.inst phiId)) })

/-- The tail of `ASTCodegen::for_expr` (ast_visitor.cpp:254-281): compare
the end value against zero, branch back to `loop` or on to `after_loop`,
complete the phi's backedge, restore the shadowed binding (prior non-null
value restored, otherwise the name erased), and produce the loop's constant
zero value. The three error returns of the source never reach this tail. -/
def for_expr_finish (vr fn : String) (loop_bb phiId : Nat) (old_value : Option LVal)
    (nextId : Nat) (end_cond : LVal) (st : CG) : CG :=
  let (condId, st) := st.emitI (.fcmpone (some end_cond) (some (.constFP 0)))
  let loop_end_bb := st.getInsertBlockD
  let (after_bb, st) := st.newBlockIn "after_loop" fn
  let (_, st) := st.emitI (.condbr (some (.inst condId)) loop_bb after_bb)
  let st := st.setInsert after_bb
  let st := st.addIncoming phiId (some (.inst nextId)) loop_end_bb
  let st :=
    match old_value with
    | some ov => { st with named_values := st.named_values.insertS vr (some ov) }
    | none => { st with named_values := st.named_values.eraseS vr }
  { st with value := some (.constFP 0) }

mutual
/-- The `ASTCodegen` visitor over expression nodes: the `accept` double
dispatch of ast.hpp resolves to the `ASTCodegen::*_expr` methods of
ast_visitor.cpp, each of which communicates its result through the `value_`
cache (read back through `ASTCodegen::value`). Each match arm mirrors one
method (its straight-line, non-recursive segments live in the named helper
definitions above); source line references are given per arm. -/
def codegenExpr : ExprAST → CG → CG
  -- ASTCodegen::number_expr (ast_visitor.cpp:58)
  | .num v, st => number_expr v st
  -- ASTCodegen::variable_expr (ast_visitor.cpp:68)
  | .var n, st => variable_expr n st
  -- ASTCodegen::binary_expr (ast_visitor.cpp:80). NOTE (faithful to the
  -- source): both operand lowerings read `*ast.lhs()` — the right operand
  -- is never lowered.
  | .bin op l _r, st =>
    let st1 := codegenExpr l st
    let lhs := st1.value
    let st2 := codegenExpr l st1
    binary_expr_emit op lhs st2.value st2
  -- ASTCodegen::if_expr (ast_visitor.cpp:121)
  | .ifE c t e, st =>
    let st := codegenExpr c st
    match st.value with
    | none => st.value_error "Couldn't generate IR for if-condition.\n"
    | some cond =>
      match if_expr_setup cond st with
      | (none, st) => st
      | (some (fn, _then_bb, else_bb, merge_bb), st) =>
        let st := codegenExpr t st
        match st.value with
        | none => st.value_error "Couldn't generate IR for then expression.\n"
        | some then_v =>
          let (then_bb2, st) := if_expr_mid fn else_bb merge_bb st
          let st := codegenExpr e st
          match st.value with
          | none => st.value_error "Couldn't generate IR for else expression.\n"
          | some else_v => if_expr_finish fn merge_bb then_v then_bb2 else_v st
  -- ASTCodegen::for_expr (ast_visitor.cpp:200). The induction variable is
  -- shadowed in for_expr_setup and restored only in for_expr_finish on the
  -- fall-through exit; the three value_error returns restore nothing
  -- (faithful to the source).
  | .forE vr start_e end_e step_e body_e, st =>
    let st := codegenExpr start_e st
    match st.value with
    | none => st.value_error "Couldn't generate code for for-loop start."
    | some start_val =>
      match for_expr_setup vr start_val st with
      | (none, st) => st
      | (some (fn, loop_bb, phiId, old_value), st) =>
        let st := codegenExpr body_e st
        match st.value with
        | none => st.value_error "Couldn't generate code for loop body."
        | some _ =>
          let (step_val, st) := codegenStep step_e st
          match step_val with
          | none => st.value_error "Couldn't generate code for loop step."
          | some step_v =>
            let (nextId, st) := st.emitI (.fadd (some (.inst phiId)) (some step_v))
            let st := codegenExpr end_e st
            match st.value with
            | none => st.value_error "Couldn't generate code for loop end expression."
            | some end_cond =>
              for_expr_finish vr fn loop_bb phiId old_value nextId end_cond st
  -- ASTCodegen::call_expr (ast_visitor.cpp:284): resolve the callee in the
  -- module, check the arity, lower each argument left-to-right (the values
  -- pushed are whatever `value_` holds, with no per-argument null check),
  -- then emit the call.
  | .call callee args, st =>
    match st.getFunction callee with
    | none => st.function_error "Function was not found in symbol table.\n"
    | some F =>
      if F.fargs.length ≠ args.length then
        st.function_error
          "Number of arguments in CallExprAST does not match those in symbol table.\n"
      else
        let (avs, st) := codegenArgs args st
        st.emitValue (.callI callee avs)

/-- The loop-step handling of `ASTCodegen::for_expr` (ast_visitor.cpp:236-243):
the step expression is optional; when present it is lowered (a null result
is the caller's "loop step" error), otherwise the constant `1.0` is used. -/
def codegenStep : Option ExprAST → CG → Option LVal × CG
  | some se, st =>
    let st := codegenExpr se st
    (st.value, st)
  | none, st => (some (.constFP 1), st)

/-- The argument loop of `ASTCodegen::call_expr`: `arg->accept(*this);
args.push_back(value_);`. -/
def codegenArgs : List ExprAST → CG → List (Option LVal) × CG
  | [], st => ([], st)
  | a :: rest, st =>
    let st := codegenExpr a st
    let v := st.value
    let (vs, st) := codegenArgs rest st
    (v :: vs, st)
end

/-- `ASTCodegen::value` (ast_visitor.cpp:20): visit, then read the `value_`
cache. -/
def ASTCodegen.value (ast : ExprAST) (st : CG) : Option LVal × CG :=
  let st := codegenExpr ast st
  (st.value, st)

/-- `ASTCodegen::prototype` (ast_visitor.cpp:310): `llvm::Function::Create`
appends a routine with one scalar slot per parameter, parameter names
attached, and caches it in `function_`. (LLVM's rename-on-name-collision is
not modelled; `ASTCodegen::function` only reaches this when no function of
this name exists.) -/
def codegen_prototype (ast : PrototypeAST) (st : CG) : CG :=
  { st with module := st.module ++ [⟨ast.name, ast.args, []⟩],
            functionC := some ast.name }

/-- The parameter bindings installed by `ASTCodegen::function` after
`named_values_.clear()`. -/
def bindArgs (fn : String) (names : List String) : SymTab :=
  (names.enum).foldl (fun m p => m.insertS p.2 (some (.argV fn p.1))) []

/-- `ASTCodegen::function` (ast_visitor.cpp:335): fetch or create the
routine; refuse to attach a body to a non-empty routine ("Function
redefinition."); otherwise open the entry block, bind the parameters, lower
the body; a null body value erases the routine, a good one is returned
(`llvm::verifyFunction` and the pass manager are opaque backend steps with no
modelled effect). -/
def codegen_function (ast : FunctionAST) (st : CG) : CG :=
  let st := { st with functionC := (st.getFunction ast.proto.name).map (·.fname) }
  let st := if st.functionC = none then codegen_prototype ast.proto st else st
  match st.functionC.bind st.getFunction with
  | none => st.stuck
  | some F =>
    if F.fblocks ≠ [] then st.function_error "Function redefinition.\n"
    else
      let (bb, st) := st.newBlockIn "entry" F.fname
      let st := st.setInsert bb
      let st := { st with named_values := bindArgs F.fname F.fargs }
      let st := codegenExpr ast.body st
      match st.value with
      | some v =>
        let (_, st) := st.emitI (.retI (some v))
        st
      | none =>
        let st := { st with module := st.module.filter (fun f => f.fname ≠ F.fname) }
        st.function_error "Function body could not be built.\n"

-- ============================================================================
-- Concrete lowering contexts used by the theorems
-- ============================================================================

/-- A lowering context exactly as `ASTCodegen::function` establishes it for a
routine `t(a)`: the prototype has been lowered, the `entry` block is open for
insertion, and `named_values_` holds the parameter bound to its argument
value. -/
def entryState1 : CG :=
  { module := [⟨"t", ["a"], [0]⟩], blocks := [⟨"entry", some "t"⟩],
    insts := [], insertPt := some 0,
    named_values := [("a", some (.argV "t" 0))],
    diags := [], value := none, functionC := some "t", phiC := none, ub := false }

/-- The same context for a two-parameter routine `t(a, b)`. -/
def entryState2 : CG :=
  { module := [⟨"t", ["a", "b"], [0]⟩], blocks := [⟨"entry", some "t"⟩],
    insts := [], insertPt := some 0,
    named_values := [("a", some (.argV "t" 0)), ("b", some (.argV "t" 1))],
    diags := [], value := none, functionC := some "t", phiC := none, ub := false }

/-- A module state in which a routine `g(p)` already has a body (a non-empty
basic-block list), as after a completed `def g(p) ...`. -/
def redefState : CG :=
  { module := [⟨"g", ["p"], [0]⟩], blocks := [⟨"entry", some "g"⟩], insts := [],
    insertPt := none, named_values := [], diags := [], value := none,
    functionC := none, phiC := none, ub := false }

-- ============================================================================
-- Helper lemmas
-- ============================================================================

/-- After `insertS`, the inserted key maps to the inserted value. -/
theorem SymTab.lookupS_insertS (m : SymTab) (k : String) (v : Option LVal) :
    (m.insertS k v).lookupS k = some v := by
  induction m with
  | nil => simp [SymTab.insertS, SymTab.lookupS]
  | cons hd tl ih =>
    obtain ⟨k2, v2⟩ := hd
    by_cases hk : k2 = k
    · simp [SymTab.insertS, SymTab.lookupS, hk]
    · simp [SymTab.insertS, SymTab.lookupS, hk, ih]

/-- After `eraseS`, the erased key is absent. -/
theorem SymTab.lookupS_eraseS (m : SymTab) (k : String) :
    (m.eraseS k).lookupS k = none := by
  induction m with
  | nil => simp [SymTab.eraseS, SymTab.lookupS]
  | cons hd tl ih =>
    obtain ⟨k2, v2⟩ := hd
    by_cases hk : k2 = k
    · simp [SymTab.eraseS, hk, ih]
    · simp [SymTab.eraseS, SymTab.lookupS, hk, ih]

/-- Appending a fresh entry for an absent key makes it found. -/
theorem SymTab.lookupS_append_fresh (m : SymTab) (k : String) (v : Option LVal)
    (h : m.lookupS k = none) : (m ++ [(k, v)]).lookupS k = some v := by
  induction m with
  | nil => simp [SymTab.lookupS]
  | cons hd tl ih =>
    obtain ⟨k2, v2⟩ := hd
    by_cases hk : k2 = k
    · simp [SymTab.lookupS, hk] at h
    · simp only [SymTab.lookupS, hk, if_false, List.cons_append] at h ⊢
      exact ih h

/-- `getFunction` finds a function carrying the requested name. -/
theorem CG.getFunction_fname {st : CG} {n : String} {F : LFunc}
    (h : st.getFunction n = some F) : F.fname = n := by
  have hp := List.find?_some h
  exact eq_of_beq hp

/-- `printEach` is the elementwise `print`. -/
theorem printEach_eq_map (l : List ExprAST) : printEach l = l.map ExprAST.print := by
  induction l with
  | nil => rfl
  | cons a rest ih => simp [printEach, ih]

/-- The comma loop of the `print` methods stays in bounds and succeeds as
long as the iteration count fits the piece list and every piece printed. -/
theorem printPieces_isSome (ps : List (Option String))
    (hall : ∀ x ∈ ps, x.isSome) :
    ∀ (remaining idx : Nat) (acc : String), idx + remaining ≤ ps.length →
      (printPieces ps idx remaining acc).isSome := by
  intro remaining
  induction remaining with
  | zero => intro idx acc _; simp [printPieces]
  | succ k ih =>
    intro idx acc h
    have hidx : idx < ps.length := by omega
    have hget : ps.get? idx = some (ps.get ⟨idx, hidx⟩) := List.get?_eq_get hidx
    obtain ⟨s, hs⟩ := Option.isSome_iff_exists.mp (hall _ (List.get_mem ps idx hidx))
    rw [printPieces, hget, hs]
    exact ih (idx + 1) (acc ++ s ++ ", ") (by omega)

/-- `size - 1` in `size_t` arithmetic is at most `size - 1` for a non-empty
vector. -/
theorem size_t_pred_le {n : Nat} (h : 1 ≤ n) : size_t_pred n ≤ n - 1 := by
  unfold size_t_pred
  have h64 : (2 : Nat) ^ 64 = 18446744073709551616 := by norm_num
  rw [h64]
  omega

/-- Shared shape of the in-bounds direction of claim C9: with a non-empty,
everywhere-printable piece list, both `print` loops and the final
`size - 1` access are in bounds, so the whole print succeeds. -/
theorem printFromPieces_isSome (header : String) (ps : List (Option String))
    (hne : ps ≠ []) (hall : ∀ x ∈ ps, x.isSome) :
    (printFromPieces header ps).isSome := by
  have hlen : 1 ≤ ps.length := List.length_pos.mpr hne
  have hb : size_t_pred ps.length ≤ ps.length - 1 := size_t_pred_le hlen
  have hloop := printPieces_isSome ps hall (size_t_pred ps.length) 0 header (by omega)
  obtain ⟨acc, hacc⟩ := Option.isSome_iff_exists.mp hloop
  have hidx : size_t_pred ps.length < ps.length := by omega
  have hget : ps.get? (size_t_pred ps.length)
      = some (ps.get ⟨size_t_pred ps.length, hidx⟩) := List.get?_eq_get hidx
  obtain ⟨s, hs⟩ := Option.isSome_iff_exists.mp
    (hall _ (List.get_mem ps (size_t_pred ps.length) hidx))
  unfold printFromPieces
  rw [hacc, hget, hs]
  rfl

/-- `value_error` flushes the `value_` cache. -/
theorem CG.value_error_value (st : CG) (msg : String) :
    (st.value_error msg).value = none := rfl

/-- The first projection of the default-inserting read is the prior mapped
value, null when the key was absent. -/
theorem SymTab.getDefault_fst (m : SymTab) (k : String) :
    (m.getDefault k).1 = match m.lookupS k with
      | some p => p
      | none => none := by
  unfold SymTab.getDefault
  cases m.lookupS k <;> rfl

/-- When `for_expr_setup` reports no parent function, the state is stuck with
a null `value_`. -/
theorem for_expr_setup_none {vr : String} {sv : LVal} {st st2 : CG}
    (h : for_expr_setup vr sv st = (none, st2)) : st2.value = none := by
  unfold for_expr_setup at h
  cases hp : st.getInsertParent <;> rw [hp] at h
  · cases h
    rfl
  · simp at h

/-- The saved binding handed out by `for_expr_setup` is exactly what the
default-inserting `named_values_[loop_var]` read returns on the incoming
state (none of the block bookkeeping before it touches `named_values_`). -/
theorem for_expr_setup_some {vr : String} {sv : LVal} {st st2 : CG}
    {fn : String} {lb pid : Nat} {old : Option LVal}
    (h : for_expr_setup vr sv st = (some (fn, lb, pid, old), st2)) :
    old = (SymTab.getDefault st.named_values vr).1 := by
  unfold for_expr_setup at h
  cases hp : st.getInsertParent <;> rw [hp] at h
  · simp at h
  · simp only [CG.newBlockIn, CG.emitI, CG.setInsert, CG.addIncoming,
      Prod.mk.injEq, Option.some.injEq] at h
    obtain ⟨⟨-, -, -, h4⟩, -⟩ := h
    exact h4.symm

/-- After the restore step at the end of `for_expr_finish`, the induction
variable maps to the saved binding: the prior value when one was (non-null)
saved, and is absent otherwise. -/
theorem for_expr_finish_lookup (vr fn : String) (lb pid : Nat)
    (old : Option LVal) (nid : Nat) (ec : LVal) (st : CG) :
    SymTab.lookupS (for_expr_finish vr fn lb pid old nid ec st).named_values vr =
      match old with
      | some ov => some (some ov)
      | none => none := by
  unfold for_expr_finish
  cases old
  · simp [CG.emitI, CG.setInsert, CG.newBlockIn, CG.addIncoming,
      SymTab.lookupS_eraseS]
  · simp [CG.emitI, CG.setInsert, CG.newBlockIn, CG.addIncoming,
      SymTab.lookupS_insertS]

-- ============================================================================
-- Claim theorems
-- ============================================================================

/-- C1: the claim says `BinaryOp` lowering lowers the left operand, then the
right operand, then emits the matching primitive applied to the left and
right values. Evaluating the embedded `ASTCodegen::binary_expr` at the
failing input `a - b` (both names bound to distinct argument values) shows
the code instead lowers `*ast.lhs()` twice (ast_visitor.cpp:83-84) and emits
`fsub` applied to the LEFT value in BOTH operand positions — not to the left
and right values as claimed. -/
theorem c1_binary_lowers_left_operand_twice :
    (codegenExpr (.bin '-' (.var "a") (.var "b")) entryState2).insts
      = [⟨.fsub (some (.argV "t" 0)) (some (.argV "t" 0)), some 0⟩]
  ∧ (codegenExpr (.bin '-' (.var "a") (.var "b")) entryState2).value
      = some (.inst 0)
  ∧ (codegenExpr (.bin '-' (.var "a") (.var "b")) entryState2).insts
      ≠ [⟨.fsub (some (.argV "t" 0)) (some (.argV "t" 1)), some 0⟩]
  ∧ (codegenExpr (.bin '-' (.var "a") (.var "b")) entryState2).diags = [] :=
  ⟨rfl, rfl, by decide, rfl⟩

/-- C2: operator-precedence parsing produces standard arithmetic grouping:
`a + b * c` groups the tighter `*` to the right, `(a + b) * c` keeps the
parenthesized sum as the left operand, and in general (for every pair of
table operators) a strictly tighter-binding operator to the right is grouped
to the right while equal or looser precedence associates to the left. -/
theorem c2_precedence_grouping :
    ((Parser.parse_expression 64
        (Parser.init [idTok "a", opTok "+", idTok "b", opTok "*", idTok "c"])).1
      = some (.bin '+' (.var "a") (.bin '*' (.var "b") (.var "c"))))
  ∧ ((Parser.parse_expression 64
        (Parser.init [opTok "(", idTok "a", opTok "+", idTok "b", opTok ")",
          opTok "*", idTok "c"])).1
      = some (.bin '*' (.bin '+' (.var "a") (.var "b")) (.var "c")))
  ∧ ∀ p ∈ ["<", "+", "-", "*"], ∀ q ∈ ["<", "+", "-", "*"],
      (Parser.parse_expression 64
          (Parser.init [idTok "a", opTok p, idTok "b", opTok q, idTok "c"])).1
        = some (if binop_precedence p < binop_precedence q then
            .bin (firstChar p) (.var "a") (.bin (firstChar q) (.var "b") (.var "c"))
          else
            .bin (firstChar q) (.bin (firstChar p) (.var "a") (.var "b")) (.var "c")) := by
  refine ⟨rfl, rfl, ?_⟩
  intro p hp q hq
  fin_cases hp <;> fin_cases hq <;> rfl

/-- C2 witness: the general grouping rule instantiated at `a + b * c`. -/
theorem c2_precedence_grouping_witness :
    (Parser.parse_expression 64
        (Parser.init [idTok "a", opTok "+", idTok "b", opTok "*", idTok "c"])).1
      = some (if binop_precedence "+" < binop_precedence "*" then
          .bin (firstChar "+") (.var "a")
            (.bin (firstChar "*") (.var "b") (.var "c"))
        else
          .bin (firstChar "*") (.bin (firstChar "+") (.var "a") (.var "b"))
            (.var "c")) :=
  c2_precedence_grouping.2.2 "+" (by simp) "*" (by simp)

/-- C3: the claim says a fully-lowered conditional produces the merge-block
phi value. Evaluating the embedded `ASTCodegen::if_expr` at
`if a then 2 else 3` (condition bound to an argument) shows the phi is built
with the right incoming edges but cached only in the never-read `phi_`
member (ast_visitor.cpp:197), while the produced value (`value_`) is the
ELSE branch's value `3.0`, not the phi. -/
theorem c3_conditional_value_is_else_value :
    (codegenExpr (.ifE (.var "a") (.num 2) (.num 3)) entryState1).value
      = some (.constFP 3)
  ∧ (codegenExpr (.ifE (.var "a") (.num 2) (.num 3)) entryState1).phiC = some 4
  ∧ (codegenExpr (.ifE (.var "a") (.num 2) (.num 3)) entryState1).insts.get? 4
      = some ⟨.phi [(some (.constFP 2), 1), (some (.constFP 3), 2)], some 3⟩
  ∧ (codegenExpr (.ifE (.var "a") (.num 2) (.num 3)) entryState1).value
      ≠ some (.inst 4) :=
  ⟨rfl, rfl, rfl, by decide⟩

/-- C4 counterexample: the claim (restoration on EVERY exit path, error paths
included) is false. Lowering `for i = 1, 1 in z` in a context where `i` is
unbound and the body `z` fails leaves `i` bound to the loop phi in `locals`
afterward (the three error returns of `ASTCodegen::for_expr` skip the
restore). -/
theorem c4_error_path_keeps_shadow_counterexample :
    SymTab.lookupS entryState1.named_values "i" = none
  ∧ (codegenExpr (.forE "i" (.num 1) (.num 1) none (.var "z")) entryState1).value
      = none
  ∧ SymTab.lookupS
      (codegenExpr (.forE "i" (.num 1) (.num 1) none (.var "z")) entryState1).named_values
      "i" = some (some (.inst 1))
  ∧ SymTab.lookupS
      (codegenExpr (.forE "i" (.num 1) (.num 1) none (.var "z")) entryState1).named_values
      "i" ≠ none :=
  ⟨rfl, rfl, rfl, by decide⟩

/-- C4 (amended): on every SUCCESSFUL `BoundedLoop` lowering the induction
variable's binding is restored relative to its state at the save point (just
after the start expression is lowered, before the shadow is installed): a
prior non-null binding is restored, and otherwise — unbound, or bound to a
null value by an earlier failed lookup — the name is absent afterward. On
the error exit paths (body, step or end failing) the variable instead stays
bound to the loop phi, as the counterexample shows. -/
theorem c4_shadow_restored_on_success (st : CG) (vr : String) (s e : ExprAST)
    (stp : Option ExprAST) (b : ExprAST)
    (hok : (codegenExpr (.forE vr s e stp b) st).value.isSome) :
    SymTab.lookupS (codegenExpr (.forE vr s e stp b) st).named_values vr =
      (match SymTab.lookupS (codegenExpr s st).named_values vr with
       | some (some v) => some (some v)
       | _ => none) := by
  revert hok
  rw [codegenExpr]
  generalize codegenExpr s st = m
  cases hv : m.value with
  | none =>
    intro hok
    simp [CG.value_error] at hok
  | some start_val =>
    rcases hsetup : for_expr_setup vr start_val m with ⟨o, st1⟩
    cases o with
    | none =>
      simp only [hsetup]
      intro hok
      rw [for_expr_setup_none hsetup] at hok
      cases hok
    | some quad =>
      obtain ⟨fn, loop_bb, phiId, old_value⟩ := quad
      have hold := for_expr_setup_some hsetup
      simp only [hsetup]
      cases hb2 : (codegenExpr b st1).value with
      | none =>
        simp only [hb2]
        intro hok
        simp [CG.value_error] at hok
      | some bv =>
        simp only [hb2]
        rcases hstep : codegenStep stp (codegenExpr b st1) with ⟨sv, st3⟩
        cases sv with
        | none =>
          simp only [hstep]
          intro hok
          simp [CG.value_error] at hok
        | some step_v =>
          simp only [hstep]
          rcases hemit : st3.emitI (.fadd (some (.inst phiId)) (some step_v))
            with ⟨nextId, st4⟩
          simp only [hemit]
          cases he2 : (codegenExpr e st4).value with
          | none =>
            simp only [he2]
            intro hok
            simp [CG.value_error] at hok
          | some end_cond =>
            simp only [he2]
            intro _
            rw [for_expr_finish_lookup]
            rw [hold, SymTab.getDefault_fst]
            cases m.named_values.lookupS vr with
            | none => rfl
            | some p => cases p <;> rfl

/-- C4 witness: a successful loop `for i = 1, 0 in 5` from a context where
`i` is unbound; afterward `i` is absent again. -/
theorem c4_shadow_restored_on_success_witness :
    SymTab.lookupS
      (codegenExpr (.forE "i" (.num 1) (.num 0) none (.num 5)) entryState1).named_values
      "i" =
      (match SymTab.lookupS (codegenExpr (.num 1) entryState1).named_values "i" with
       | some (some v) => some (some v)
       | _ => none) :=
  c4_shadow_restored_on_success entryState1 "i" (.num 1) (.num 0) none (.num 5) rfl

/-- C5: the claim says a failed operand lowering makes the `BinaryOp` report
a recoverable error and produce a null value. Evaluating the embedded
`ASTCodegen::binary_expr` at `1 + x` with `x` unbound shows the right
operand (whose lowering fails, first conjunct) is never lowered — the left
operand is lowered twice — and the guard `!(lhs || rhs)` fires only when
both results are null, so the code emits `fadd(1.0, 1.0)`, produces a
non-null value and reports no diagnostic. -/
theorem c5_failed_operand_not_propagated :
    (ASTCodegen.value (.var "x") entryState1).1 = none
  ∧ (codegenExpr (.bin '+' (.num 1) (.var "x")) entryState1).value
      = some (.inst 0)
  ∧ (codegenExpr (.bin '+' (.num 1) (.var "x")) entryState1).insts
      = [⟨.fadd (some (.constFP 1)) (some (.constFP 1)), some 0⟩]
  ∧ (codegenExpr (.bin '+' (.num 1) (.var "x")) entryState1).diags = [] :=
  ⟨rfl, rfl, rfl, rfl⟩

/-- C6: attaching a body to a routine that already has one fails with exactly
one diagnostic ("Function redefinition.") and leaves the module — and the
locals table — unchanged: the previously defined routine stays intact and
nothing is added, so no duplicate exists afterward. -/
theorem c6_redefinition_rejected_module_intact (st : CG) (ast : FunctionAST)
    (F : LFunc) (h : st.getFunction ast.proto.name = some F)
    (hb : F.fblocks ≠ []) :
    (codegen_function ast st).module = st.module
  ∧ (codegen_function ast st).diags = st.diags ++ ["Function redefinition.\n"]
  ∧ (codegen_function ast st).functionC = none
  ∧ (codegen_function ast st).named_values = st.named_values := by
  have hf : F.fname = ast.proto.name := CG.getFunction_fname h
  have h2 : CG.getFunction { st with functionC := some F.fname } F.fname = some F := by
    show st.module.find? (fun f => f.fname == F.fname) = some F
    rw [hf]; exact h
  have hstep : codegen_function ast st
      = CG.function_error { st with functionC := some F.fname }
          "Function redefinition.\n" := by
    unfold codegen_function
    rw [h]
    simp only [Option.map_some']
    rw [if_neg (Option.some_ne_none F.fname)]
    simp only [Option.some_bind]
    split
    · next heq => rw [h2] at heq; cases heq
    · next F2 heq =>
      rw [h2] at heq
      injection heq with heq2
      subst heq2
      rw [if_pos hb]
  rw [hstep]
  exact ⟨rfl, rfl, rfl, rfl⟩

/-- C6 witness: redefining `g(p)` when `g` already has a body. -/
theorem c6_redefinition_witness :
    (codegen_function ⟨⟨"g", ["p"]⟩, .num 1⟩ redefState).module = redefState.module
  ∧ (codegen_function ⟨⟨"g", ["p"]⟩, .num 1⟩ redefState).diags
      = redefState.diags ++ ["Function redefinition.\n"]
  ∧ (codegen_function ⟨⟨"g", ["p"]⟩, .num 1⟩ redefState).functionC = none
  ∧ (codegen_function ⟨⟨"g", ["p"]⟩, .num 1⟩ redefState).named_values
      = redefState.named_values :=
  c6_redefinition_rejected_module_intact redefState ⟨⟨"g", ["p"]⟩, .num 1⟩
    ⟨"g", ["p"], [0]⟩ rfl (by decide)

/-- C7: prototype parameter lists are whitespace-separated while call
argument lists are comma-separated: `def f(a b c) a` parses with parameters
`a b c`; a comma in a prototype parameter list is a parse error; `f(a, b)`
parses to the call with arguments `a` and `b`; `f(a b)` is a parse error. -/
theorem c7_parameter_and_argument_separators :
    ((Parser.step 64 (Parser.init [⟨.tok_def, none⟩, idTok "f", opTok "(",
        idTok "a", idTok "b", idTok "c", opTok ")", idTok "a"])).1
      = some (.funcNode ⟨⟨"f", ["a", "b", "c"]⟩, .var "a"⟩))
  ∧ ((Parser.step 64 (Parser.init [⟨.tok_def, none⟩, idTok "f", opTok "(",
        idTok "a", opTok ",", idTok "b", opTok ")", idTok "a"])).1 = none)
  ∧ ((Parser.parse_expression 64 (Parser.init [idTok "f", opTok "(", idTok "a",
        opTok ",", idTok "b", opTok ")"])).1
      = some (.call "f" [.var "a", .var "b"]))
  ∧ ((Parser.parse_expression 64 (Parser.init [idTok "f", opTok "(", idTok "a",
        idTok "b", opTok ")"])).1 = none) :=
  ⟨rfl, rfl, rfl, rfl⟩

/-- C8 counterexample: the claim says `Parser::step` on the `;` separator
consumes it, recurses, and returns the next top-level form. On the token
stream `; x` the embedded `step` consumes the separator but returns a null
result (the `break` in the switch reaches the trailing `return nullptr`),
leaving `x` as the current lookahead. -/
theorem c8_separator_returns_null_counterexample :
    (Parser.init [opTok ";", idTok "x"]).current = opTok ";"
  ∧ (Parser.step 64 (Parser.init [opTok ";", idTok "x"])).1 = none
  ∧ (Parser.step 64 (Parser.init [opTok ";", idTok "x"])).2.current = idTok "x" :=
  ⟨rfl, rfl, rfl⟩

/-- C8 (amended): whenever the lookahead is the `;` operator, `step` consumes
exactly that token and returns a null AST without recursing; the next
top-level form stays as the lookahead and is returned by a SUBSEQUENT call
(demonstrated on `; x`). -/
theorem c8_separator_consumed_no_recursion :
    (∀ (fuel : Nat) (st : PState), st.current.type = .tok_operator →
      st.current.val = ";" → Parser.step fuel st = (none, Parser.next_token st))
  ∧ (Parser.step 64 (Parser.step 64 (Parser.init [opTok ";", idTok "x"])).2).1
      = some (.funcNode ⟨⟨"", []⟩, .var "x"⟩) := by
  refine ⟨?_, rfl⟩
  intro fuel st h1 h2
  simp [Parser.step, h1, h2]

/-- C8 witness: the amended rule applied to a concrete `;` lookahead. -/
theorem c8_separator_consumed_no_recursion_witness :
    Parser.step 3 (Parser.init [opTok ";"])
      = (none, Parser.next_token (Parser.init [opTok ";"])) :=
  c8_separator_consumed_no_recursion.1 3 (Parser.init [opTok ";"]) rfl rfl

/-- C9: `CallExprAST::print` and `PrototypeAST::print` unconditionally read
the element at index `size - 1` of their vector: with a non-empty list (and,
for calls, printable elements) every access is in bounds and the print
succeeds; with an empty list the unconditional `size - 1` read (which wraps
to `2^64 - 1` in `size_t`) is out of bounds and the print has no defined
result. The anonymous zero-parameter prototype produced by
`parse_top_level` is exactly such a zero-argument case. -/
theorem c9_print_reads_final_index :
    (∀ (callee : String) (args : List ExprAST), args ≠ [] →
      (∀ a ∈ args, (ExprAST.print a).isSome) →
      (ExprAST.print (.call callee args)).isSome)
  ∧ (∀ (nm : String) (params : List String), params ≠ [] →
      (PrototypeAST.print ⟨nm, params⟩).isSome)
  ∧ ExprAST.print (.call "f" []) = none
  ∧ PrototypeAST.print ⟨"", []⟩ = none
  ∧ (Parser.step 64 (Parser.init [idTok "y"])).1
      = some (.funcNode ⟨⟨"", []⟩, .var "y"⟩) := by
  refine ⟨?_, ?_, rfl, rfl, rfl⟩
  · intro callee args hne hall
    rw [ExprAST.print]
    apply printFromPieces_isSome
    · rw [printEach_eq_map]
      simpa using hne
    · rw [printEach_eq_map]
      intro x hx
      obtain ⟨a, ha, rfl⟩ := List.mem_map.mp hx
      exact hall a ha
  · intro nm params hne
    rw [PrototypeAST.print]
    apply printFromPieces_isSome
    · simpa using hne
    · intro x hx
      obtain ⟨a, _, rfl⟩ := List.mem_map.mp hx
      rfl

/-- C9 witness: both in-bounds parts at concrete one-element vectors. -/
theorem c9_print_reads_final_index_witness :
    (ExprAST.print (.call "f" [.var "x"])).isSome
  ∧ (PrototypeAST.print ⟨"g", ["p"]⟩).isSome :=
  ⟨c9_print_reads_final_index.1 "f" [.var "x"] (by simp)
      (by intro a ha; rw [List.mem_singleton] at ha; subst ha; rfl),
   c9_print_reads_final_index.2.1 "g" ["p"] (by simp)⟩

/-- C10: lowering a `VariableRef` whose name is unbound does not leave
`locals` unchanged: besides producing a null value and the recoverable-error
diagnostic, the `named_values_[name]` read default-inserts the name bound to
a null value, so the name is present (mapped to null) afterward. -/
theorem c10_undefined_variable_default_insert (st : CG) (n : String)
    (h : st.named_values.lookupS n = none) :
    (codegenExpr (.var n) st).value = none
  ∧ SymTab.lookupS (codegenExpr (.var n) st).named_values n = some none
  ∧ (codegenExpr (.var n) st).diags
      = st.diags ++ ["Variable not in symbol table.\n"] := by
  have hn := SymTab.lookupS_append_fresh st.named_values n none h
  have hd : st.named_values.getDefault n = (none, st.named_values ++ [(n, none)]) := by
    simp [SymTab.getDefault, h]
  have hunf : codegenExpr (.var n) st =
      { st with named_values := st.named_values ++ [(n, none)], value := none,
                diags := st.diags ++ ["Variable not in symbol table.\n"] } := by
    show (let p := st.named_values.getDefault n
          let st1 : CG := { st with named_values := p.2, value := p.1 }
          if st1.value = none then
            { st1 with diags := st1.diags ++ ["Variable not in symbol table.\n"] }
          else st1) = _
    rw [hd]
    rfl
  rw [hunf]
  exact ⟨rfl, hn, rfl⟩

/-- C10 witness: looking up the unbound `q` in a one-entry locals table. -/
theorem c10_undefined_variable_default_insert_witness :
    (codegenExpr (.var "q") entryState1).value = none
  ∧ SymTab.lookupS (codegenExpr (.var "q") entryState1).named_values "q" = some none
  ∧ (codegenExpr (.var "q") entryState1).diags
      = entryState1.diags ++ ["Variable not in symbol table.\n"] :=
  c10_undefined_variable_default_insert entryState1 "q" rfl
